import Mathlib

/-!
Verification of `torch/_inductor/autotune_process.py`: the subprocess-based
autotuning benchmark pool.  The Python module is shallowly embedded: the
child process is an explicit handle carrying an aliveness flag and a
behaviour description (does it exit within the graceful join, within the
terminate join), queues are Lean lists, floats used as timeouts are
rationals, and the asynchronous environment observed by a blocking
`get` (which response arrives at which 0.5s poll, whether the child is
alive at each poll, the final exit code) is passed in explicitly as a
`GetEnv`.  Fallible Python operations (assertions, exceptions) are
modelled with `Option`/explicit outcome types.
-/

set_option autoImplicit false

/-- Tensor metadata carried by a benchmark request: device, element type,
shape, strides, storage offset and an optional name (mirrors the
`TensorMeta` dataclass; `torch.device`/`torch.dtype` are modelled as plain
identifiers). -/
structure TensorMeta where
  device : Int
  dtype : String
  sizes : List Nat
  strides : List Nat
  offset : Nat
  name : Option String
deriving DecidableEq

/-- A `Union[TensorMeta, List[TensorMeta]]` argument, as received by
`BenchmarkRequest.__init__`: either a single `TensorMeta` or a
tuple/list of them. -/
inductive TensorMetaArg
  | single (t : TensorMeta)
  | seq (ts : List TensorMeta)
deriving DecidableEq

/-- The state of a constructed `BenchmarkRequest`: `input_tensor_meta` is
always stored as a list, `output_tensor_meta` always as a single
`TensorMeta` (mirrors the fields set by `BenchmarkRequest.__init__`). -/
structure BenchmarkRequest where
  kernel_name : String
  input_tensor_meta : List TensorMeta
  output_tensor_meta : TensorMeta
  extra_args : List Int
deriving DecidableEq

/-- `BenchmarkRequest.__init__`: a single input `TensorMeta` is normalised
to a one-element list; a tuple/list output is asserted to have length
exactly 1 and its sole element is stored unwrapped.  `none` models the
`assert len(output_tensor_meta) == 1` failing. -/
def BenchmarkRequest.init (kernel_name : String) (input output : TensorMetaArg)
    (extra_args : List Int) : Option BenchmarkRequest :=
  let inputs : List TensorMeta :=
    match input with
    | TensorMetaArg.single t => [t]
    | TensorMetaArg.seq ts => ts
  match output with
  | TensorMetaArg.single t => some ⟨kernel_name, inputs, t, extra_args⟩
  | TensorMetaArg.seq ts =>
      match ts with
      | [t] => some ⟨kernel_name, inputs, t, extra_args⟩
      | _ => none

/-- A Python float as produced by benchmarking: either `float("inf")` or a
finite value (modelled as a rational). -/
inductive PyFloat
  | inf
  | val (q : ℚ)
deriving DecidableEq

/-- A message on the request queue: the `None` termination sentinel, a
`Ping`, a `BenchmarkRequest`, or any other (invalid) object. -/
inductive Request
  | sentinel
  | ping
  | bench (r : BenchmarkRequest)
  | invalid
deriving DecidableEq

/-- A message on the response queue: a `Pong`, or the float returned by
`BenchmarkRequest.benchmark()`. -/
inductive Response
  | pong
  | result (v : PyFloat)
deriving DecidableEq

/-- How the child's work loop ended: it saw the `None` sentinel and broke
out of the loop; it raised `RuntimeError` on an invalid request type; the
`benchmark()` call raised; or the (finite) input list was exhausted with
the loop still blocked on `request_queue.get()`. -/
inductive WorkloopExit
  | sentinelExit
  | protocolError
  | benchFailure
  | starved
deriving DecidableEq

/-- `TuningProcess.workloop`, run inside the child: repeatedly read one
request and dispatch on its kind.  `be` models the effect of calling
`obj.benchmark()` (which may raise).  Returns the responses written to the
response queue, in order, together with how the loop ended. -/
def TuningProcess.workloop (be : BenchmarkRequest → Except Unit PyFloat) :
    List Request → List Response × WorkloopExit
  | [] => ([], WorkloopExit.starved)
  | Request.sentinel :: _ => ([], WorkloopExit.sentinelExit)
  | Request.ping :: rest =>
      let r := TuningProcess.workloop be rest
      (Response.pong :: r.1, r.2)
  | Request.bench b :: rest =>
      match be b with
      | Except.ok v =>
          let r := TuningProcess.workloop be rest
          (Response.result v :: r.1, r.2)
      | Except.error _ => ([], WorkloopExit.benchFailure)
  | Request.invalid :: _ => ([], WorkloopExit.protocolError)

/-- `TuningProcess.process_main`: the child entry point runs the work loop
and swallows any exception (logging it); in every case the child process
then exits, having written exactly the responses produced by the loop. -/
def TuningProcess.process_main (be : BenchmarkRequest → Except Unit PyFloat)
    (reqs : List Request) : List Response :=
  (TuningProcess.workloop be reqs).1

/-- How an (unresponsive) child process reacts to the kill escalation:
whether it exits within the `graceful_timeout` join after the sentinel,
and whether it exits within the `terminate_timeout` join after SIGTERM.
(SIGKILL always ends it.) -/
structure ChildBehavior where
  exitsOnGraceful : Bool
  exitsOnTerm : Bool
deriving DecidableEq

/-- A handle to a spawned child process: its pid, whether it is currently
alive, and its reaction to the kill escalation. -/
structure ProcHandle where
  pid : Nat
  alive : Bool
  behavior : ChildBehavior
deriving DecidableEq

/-- Effect on the child of `process.join(timeout=graceful_timeout)` after
the sentinel was enqueued: the child is no longer alive afterwards iff it
was already dead or exits gracefully. -/
def procJoinGraceful (p : ProcHandle) : ProcHandle :=
  if p.behavior.exitsOnGraceful then { p with alive := false } else p

/-- Effect on the child of `process.terminate()` (SIGTERM) followed by
`process.join(timeout=terminate_timeout)`. -/
def procJoinTerm (p : ProcHandle) : ProcHandle :=
  if p.behavior.exitsOnTerm then { p with alive := false } else p

/-- The `TuningProcess` dataclass: optional device id, optional process
handle, optional request queue (the list of messages the parent has
enqueued), optional response queue (presence marker; the responses
actually received are part of `GetEnv`). -/
structure TuningProcess where
  device : Option Int := none
  process : Option ProcHandle := none
  request_queue : Option (List Request) := none
  response_queue : Option Unit := none
deriving DecidableEq

/-- `TuningProcess.valid`: the sub-process has been initialized (process
and both queues are set). -/
def TuningProcess.valid (w : TuningProcess) : Bool :=
  w.process.isSome && w.request_queue.isSome && w.response_queue.isSome

/-- `TuningProcess.clear`: reset to an uninitialized state (the `device`
field is not touched by the source). -/
def TuningProcess.clear (w : TuningProcess) : TuningProcess :=
  { w with process := none, request_queue := none, response_queue := none }

/-- `TuningProcess.initialize` (named `initWorker` here): no-op if already
valid, otherwise create fresh request/response queues and spawn the child
process `spawn`. -/
def TuningProcess.initWorker (w : TuningProcess) (spawn : ProcHandle) : TuningProcess :=
  if w.valid then w
  else { w with request_queue := some [], response_queue := some (),
                process := some spawn }

/-- `TuningProcess.put`: ensure the subprocess is running (re-spawning
after a prior crash cleared the Worker), then enqueue `obj` on the request
queue. -/
def TuningProcess.put (w : TuningProcess) (spawn : ProcHandle) (obj : Request) :
    TuningProcess :=
  let w1 := w.initWorker spawn
  { w1 with request_queue := w1.request_queue.map (fun q => q ++ [obj]) }

/-- `TuningProcess.terminate`: if valid, enqueue the `None` termination
sentinel on the request queue (non-blocking, does not wait for exit). -/
def TuningProcess.terminate (w : TuningProcess) : TuningProcess :=
  if w.valid then
    { w with request_queue := w.request_queue.map (fun q => q ++ [Request.sentinel]) }
  else w

/-- `TuningProcess.wait`: if a process handle is set, join it (unbounded)
and clear the Worker's state. -/
def TuningProcess.wait (w : TuningProcess) : TuningProcess :=
  if w.process.isSome then w.clear else w

/-- One observable step of the kill escalation, recording the timeout each
join was invoked with. -/
inductive KillEvent
  | sentinel
  | joinGraceful (t : ℚ)
  | sigterm
  | joinTerminate (t : ℚ)
  | sigkill
deriving DecidableEq

/-- Result of `TuningProcess.kill`: the Worker afterwards, the final state
of the (now unreferenced) child process, and the trace of escalation
events performed, in order. -/
structure KillResult where
  worker : TuningProcess
  finalProc : Option ProcHandle
  events : List KillEvent
deriving DecidableEq

/-- `TuningProcess.kill`: if a process handle is set, send the termination
sentinel (via `terminate`, which only enqueues when valid) and join with
`graceful_timeout`; if the child is still alive, SIGTERM it and join with
`terminate_timeout`; if still alive, SIGKILL unconditionally.  Always
clears the Worker state at the end. -/
def TuningProcess.kill (w : TuningProcess) (graceful_timeout terminate_timeout : ℚ) :
    KillResult :=
  match w.process with
  | none => ⟨w, none, []⟩
  | some p =>
      let ev0 : List KillEvent := if w.valid then [KillEvent.sentinel] else []
      let w1 := w.terminate
      let p1 := procJoinGraceful p
      let ev1 := ev0 ++ [KillEvent.joinGraceful graceful_timeout]
      if p1.alive then
        let p2 := procJoinTerm p1
        let ev2 := ev1 ++ [KillEvent.sigterm, KillEvent.joinTerminate terminate_timeout]
        if p2.alive then
          ⟨w1.clear, some { p2 with alive := false }, ev2 ++ [KillEvent.sigkill]⟩
        else ⟨w1.clear, some p2, ev2⟩
      else ⟨w1.clear, some p1, ev1⟩

/-- The asynchronous environment observed by one call to
`TuningProcess.get`: which response (if any) `response_queue.get(timeout=0.5)`
yields at the i-th polling slice, whether `process.is_alive()` holds when
checked after slice i raised Empty, which response (if any) the final
bounded/unbounded `response_queue.get(timeout=remaining)` yields, and the
`process.exitcode` read in the `except queue.Empty` handler (`none` = still
running). -/
structure GetEnv where
  sliceResp : Nat → Option Response
  aliveAfterSlice : Nat → Bool
  finalResp : Option Response
  exitcode : Option Int

/-- Outcome of the inner polling loop of `TuningProcess.get`: a response
was received at slice `i`; the aliveness check after slice `i` failed and
Empty was re-raised; or the remaining timeout dropped below 1.0 with
leftover `q` (used as the final get's timeout). -/
inductive SliceOut
  | got (r : Response) (i : Nat)
  | dead (i : Nat)
  | exhausted (q : ℚ)
deriving DecidableEq

/-- The termination measure of the polling loop strictly decreases: each
slice subtracts 0.5 from a remaining timeout that was at least 1. -/
theorem floor_measure_lt (r : ℚ) (hr : 1 ≤ r) :
    Int.toNat ⌊2 * (r - 1 / 2)⌋ < Int.toNat ⌊2 * r⌋ := by
  have h2 : ⌊2 * (r - 1 / 2)⌋ = ⌊2 * r⌋ - 1 := by
    have e : 2 * (r - 1 / 2) = 2 * r - (1 : ℤ) := by push_cast; ring
    rw [e, Int.floor_sub_int]
  have h3 : (2 : ℤ) ≤ ⌊2 * r⌋ := by
    rw [Int.le_floor]; push_cast; linarith
  omega

/-- The inner polling loop of `TuningProcess.get`: while the remaining
timeout is at least 1.0, subtract 0.5, poll the response queue for 0.5s,
and on Empty re-raise immediately if the child process is no longer
alive.  `i` is the index of the current slice. -/
def sliceLoop (env : GetEnv) (i : Nat) (remaining : ℚ) : SliceOut :=
  if h : 1 ≤ remaining then
    match env.sliceResp i with
    | some r => SliceOut.got r i
    | none =>
        if env.aliveAfterSlice i then sliceLoop env (i + 1) (remaining - 1 / 2)
        else SliceOut.dead i
  else SliceOut.exhausted remaining
termination_by Int.toNat ⌊2 * remaining⌋
decreasing_by exact floor_measure_lt remaining h

/-- Why a `queue.Empty` escaped `TuningProcess.get` to its caller: the
child was still running so the kill escalation ran first (with the
recorded event trace), or the child had already crashed with the given
exit code and the Worker was cleared. -/
inductive FailKind
  | timeoutKilled (events : List KillEvent)
  | crashed (code : Int)
deriving DecidableEq

/-- Result of one call to `TuningProcess.get`: a response was returned;
`queue.Empty` was raised to the caller (after kill-or-clear); the call
blocks forever (only possible for an unbounded `result_timeout` with no
response ever arriving); or one of the leading `assert` statements
failed. -/
inductive GetOutcome
  | ok (r : Response)
  | empty (f : FailKind)
  | hang
  | assertFail
deriving DecidableEq

/-- The `except queue.Empty` handler of `TuningProcess.get`: read
`process.exitcode`; if the process is still running, run the kill
escalation with the given timeouts, else clear the Worker; then re-raise. -/
def exceptEmptyHandler (w : TuningProcess) (env : GetEnv)
    (graceful_timeout terminate_timeout : ℚ) : GetOutcome × TuningProcess :=
  match env.exitcode with
  | none =>
      let kr := w.kill graceful_timeout terminate_timeout
      (GetOutcome.empty (FailKind.timeoutKilled kr.events), kr.worker)
  | some c => (GetOutcome.empty (FailKind.crashed c), w.clear)

/-- `TuningProcess.get`: after asserting the process and response queue
are set, poll in 0.5s slices while at least 1.0s remains (re-raising
promptly if the child dies), then issue one final `get` with the leftover
timeout (unbounded when `result_timeout` is `None`); on `queue.Empty`,
kill (still running) or clear (crashed) and re-raise. -/
def TuningProcess.get (w : TuningProcess) (env : GetEnv) (result_timeout : Option ℚ)
    (graceful_timeout terminate_timeout : ℚ) : GetOutcome × TuningProcess :=
  if w.process.isSome && w.response_queue.isSome then
    match result_timeout with
    | some rt =>
        match sliceLoop env 0 rt with
        | SliceOut.got r _ => (GetOutcome.ok r, w)
        | SliceOut.dead _ => exceptEmptyHandler w env graceful_timeout terminate_timeout
        | SliceOut.exhausted _ =>
            match env.finalResp with
            | some r => (GetOutcome.ok r, w)
            | none => exceptEmptyHandler w env graceful_timeout terminate_timeout
    | none =>
        match env.finalResp with
        | some r => (GetOutcome.ok r, w)
        | none => (GetOutcome.hang, w)
  else (GetOutcome.assertFail, w)

/-- Observable trace of the `set_cuda_visible_device` context manager: the
value of `CUDA_VISIBLE_DEVICES` while the body (the process spawn) runs,
its value after the context manager has exited, and whether the body's
exception propagates to the caller. -/
structure CudaEnvTrace where
  envDuring : Option String
  envAfter : Option String
  raised : Bool
deriving DecidableEq

/-- `set_cuda_visible_device`: if `device` is `None`, the environment is
not manipulated at all; otherwise the prior value is saved, the variable
is set to `str(device)` for the duration of the body, and the `finally`
block restores the prior value (deleting the variable if it was
previously absent) regardless of whether the body raised. -/
def set_cuda_visible_device (device : Option Int) (env0 : Option String)
    (bodyRaises : Bool) : CudaEnvTrace :=
  match device with
  | none => ⟨env0, env0, bodyRaises⟩
  | some d =>
      let current := env0
      ⟨some (toString d),
       match current with
       | none => none
       | some v => some v,
       bodyRaises⟩

/-- Digit value of a character, as used by `int()` parsing. -/
def digitVal (c : Char) : Option Nat :=
  if c.isDigit then some (c.toNat - 48) else none

/-- Parse a nonempty all-digit character list as a natural number
(accumulator style). -/
def natOfDigits (cs : List Char) : Option Nat :=
  if cs.isEmpty then none
  else
    cs.foldl
      (fun acc c =>
        match acc, digitVal c with
        | some a, some d => some (a * 10 + d)
        | _, _ => none)
      (some 0)

/-- Strip leading and trailing whitespace, as `int()` does. -/
def stripWs (cs : List Char) : List Char :=
  ((cs.dropWhile Char.isWhitespace).reverse.dropWhile Char.isWhitespace).reverse

/-- Python `int(d)` on a string fragment: optional whitespace, optional
sign, digits; `none` models `ValueError`.  (Underscore separators are not
modelled.) -/
def pyIntOfChars (cs : List Char) : Option Int :=
  match stripWs cs with
  | '-' :: rest => (natOfDigits rest).map (fun n => -(n : Int))
  | '+' :: rest => (natOfDigits rest).map (fun n => (n : Int))
  | rest => (natOfDigits rest).map (fun n => (n : Int))

/-- Python `s.split(",")` on a character list: split at every comma,
keeping empty fragments (so the result is always nonempty). -/
def splitCommas : List Char → List (List Char)
  | [] => [[]]
  | c :: cs =>
      if c = ',' then [] :: splitCommas cs
      else
        match splitCommas cs with
        | [] => [[c]]
        | g :: gs => (c :: g) :: gs

/-- `[int(d) for d in s.split(",")]`: `none` models `int()` raising. -/
def parseDeviceList (s : String) : Option (List Int) :=
  (splitCommas s.toList).mapM pyIntOfChars

/-- `TuningProcessPool.get_device_list`: if multi-device autotuning is
disabled, one device-agnostic entry; else if `CUDA_VISIBLE_DEVICES` is
set, the indices parsed from it (asserting their number does not exceed
the device count); else all indices `0 .. count-1`.  `none` models an
exception (parse error or failed assert). -/
def TuningProcessPool.get_device_list (autotune_multi_device : Bool)
    (device_count : Nat) (cudaEnv : Option String) : Option (List (Option Int)) :=
  if !autotune_multi_device then some [none]
  else
    match cudaEnv with
    | some s =>
        match parseDeviceList s with
        | none => none
        | some ds =>
            if ds.length ≤ device_count then some (ds.map some) else none
    | none =>
        some ((List.range device_count).map (fun i => some (Int.ofNat i)))

/-- The `TuningProcessPool` dataclass: the idle-Worker collection (a FIFO
`queue.Queue`, modelled as a list whose head is next to be popped) and the
thread-pool executor (modelled by its `max_workers` count). -/
structure TuningProcessPool where
  processes : Option (List TuningProcess) := none
  executor : Option Nat := none
deriving DecidableEq

/-- Result of `TuningProcessPool.target` as seen by the dispatching
thread: the response returned by `process.get(...)`, the `float("inf")`
sentinel substituted on `queue.Empty`, a non-Empty exception propagating
out, or the call never returning (blocked forever). -/
inductive TargetOut
  | value (r : Response)
  | inf
  | raisedErr
  | blocked
deriving DecidableEq

/-- `TuningProcessPool.target`: pop an idle Worker, `put` the benchmark
request (re-spawning the subprocess if a prior crash cleared the Worker),
`get` with the pool's configured timeout triple; on `queue.Empty` warn and
return `float("inf")`; in a `finally` step, return the Worker to the idle
collection (appended at the back of the FIFO).  If `processes` is unset
the leading assert raises; if the idle collection is empty, the pop blocks
forever.  A `get` that never returns (impossible for a bounded
`result_timeout`) would leave the Worker checked out forever. -/
def TuningProcessPool.target (pool : TuningProcessPool) (spawn : ProcHandle)
    (env : GetEnv) (req : BenchmarkRequest) (rt g t : ℚ) :
    TargetOut × TuningProcessPool :=
  match pool.processes with
  | none => (TargetOut.raisedErr, pool)
  | some [] => (TargetOut.blocked, pool)
  | some (p :: rest) =>
      let p1 := p.put spawn (Request.bench req)
      let res := TuningProcess.get p1 env (some rt) g t
      let pool' : TuningProcessPool := { pool with processes := some (rest ++ [res.2]) }
      match res.1 with
      | GetOutcome.ok r => (TargetOut.value r, pool')
      | GetOutcome.empty _ => (TargetOut.inf, pool')
      | GetOutcome.hang => (TargetOut.blocked, { pool with processes := some rest })
      | GetOutcome.assertFail => (TargetOut.raisedErr, pool')

/-- The per-device loop body of `TuningProcessPool.initialize`: for the
i-th device, create `TuningProcess(device=device)`, initialize it, `put`
a `Ping`, and append it to the idle collection. -/
def buildWorkers (spawn : Nat → ProcHandle) : Nat → List (Option Int) → List TuningProcess
  | _, [] => []
  | i, d :: ds =>
      ((TuningProcess.mk d none none none).initWorker (spawn i)).put (spawn i)
          Request.ping
        :: buildWorkers spawn (i + 1) ds

/-- Outcome of the handshake loop of `TuningProcessPool.initialize`. -/
inductive HsOut
  | allPong
  | blocked (i : Nat)
  | raised
deriving DecidableEq

/-- The handshake loop of `TuningProcessPool.initialize`: for each Worker
in order, `assert isinstance(p.get(result_timeout=None), Pong)`; the
unbounded `get` either returns a response or blocks forever, and a
non-`Pong` reply (or an exception out of `get`) raises. -/
def handshakeAll (henv : Nat → GetEnv) : Nat → List TuningProcess → HsOut
  | _, [] => HsOut.allPong
  | i, p :: rest =>
      match (TuningProcess.get p (henv i) none 3 1).1 with
      | GetOutcome.ok Response.pong => handshakeAll henv (i + 1) rest
      | GetOutcome.hang => HsOut.blocked i
      | _ => HsOut.raised

/-- Outcome of `TuningProcessPool.initialize`: returned normally (with
the resulting pool state), blocked forever waiting for Worker `i`'s
`Pong`, or raised (failed assert or exception). -/
inductive InitOut
  | ok (pool : TuningProcessPool)
  | blocked (i : Nat)
  | raised
deriving DecidableEq

/-- `TuningProcessPool.initialize` (named `initPool` here): assert that
`processes` and `executor` are both set or both unset; return immediately
if already initialized; enumerate devices; create, initialize and `Ping`
one Worker per device; wait (unbounded) for every Worker's `Pong`; then
create the executor sized to the device count.  `spawn i` is the process
handle the i-th spawn produces and `henv i` the environment of the i-th
handshake `get`.  (The one-shot atexit registration has no effect on pool
state and is not modelled.) -/
def TuningProcessPool.initPool (pool : TuningProcessPool) (multi : Bool)
    (count : Nat) (cudaEnv : Option String) (spawn : Nat → ProcHandle)
    (henv : Nat → GetEnv) : InitOut :=
  if pool.processes.isNone != pool.executor.isNone then InitOut.raised
  else if pool.processes.isSome then InitOut.ok pool
  else
    match TuningProcessPool.get_device_list multi count cudaEnv with
    | none => InitOut.raised
    | some devices =>
        let ws := buildWorkers spawn 0 devices
        match handshakeAll henv 0 ws with
        | HsOut.allPong =>
            InitOut.ok { processes := some ws, executor := some devices.length }
        | HsOut.blocked i => InitOut.blocked i
        | HsOut.raised => InitOut.raised

/-- The claim's wording for C7: all four `TuningProcess` fields set. -/
def TuningProcess.allFieldsSet (w : TuningProcess) : Prop :=
  w.device ≠ none ∧ w.process ≠ none ∧ w.request_queue ≠ none ∧ w.response_queue ≠ none

/-- The claim's wording for C7: all four `TuningProcess` fields unset. -/
def TuningProcess.allFieldsUnset (w : TuningProcess) : Prop :=
  w.device = none ∧ w.process = none ∧ w.request_queue = none ∧ w.response_queue = none

/-- The invariant the code actually maintains: the process handle and the
two queues are all set (valid) or all unset (cleared); the device id is
independent. -/
def TuningProcess.stateInvariant (w : TuningProcess) : Prop :=
  (w.process ≠ none ∧ w.request_queue ≠ none ∧ w.response_queue ≠ none) ∨
  (w.process = none ∧ w.request_queue = none ∧ w.response_queue = none)

/-- A concrete child-process handle used in witnesses: alive, ignoring
both the sentinel and SIGTERM. -/
def procW : ProcHandle := ⟨1234, true, ⟨false, false⟩⟩

/-- A concrete child-process handle that exits gracefully. -/
def procG : ProcHandle := ⟨1235, true, ⟨true, true⟩⟩

/-- A concrete valid Worker bound to device 0. -/
def workerW : TuningProcess := ⟨some 0, some procW, some [], some ()⟩

/-- A concrete `GetEnv` in which no response ever arrives and the child
stays alive (the pure-timeout environment). -/
def envNoResp : GetEnv := ⟨fun _ => none, fun _ => true, none, none⟩

/-- A concrete `GetEnv` in which no response ever arrives and the child
has crashed with exit code 9. -/
def envCrash : GetEnv := ⟨fun _ => none, fun _ => true, none, some 9⟩

/-- A concrete `GetEnv` in which the child is found dead at the very
first polling slice. -/
def envDead0 : GetEnv := ⟨fun _ => none, fun _ => false, none, some 9⟩

/-- A concrete `GetEnv` in which the final (unbounded) `get` yields a
`Pong`. -/
def envPong : GetEnv := ⟨fun _ => none, fun _ => true, some Response.pong, none⟩

/-- A concrete `TensorMeta` used in witnesses. -/
def tmW : TensorMeta := ⟨0, "float32", [4, 4], [4, 1], 0, some "buf0"⟩

/-- A second concrete `TensorMeta` used in witnesses. -/
def tmW2 : TensorMeta := ⟨0, "float32", [8], [1], 0, some "buf1"⟩

/-- A concrete `BenchmarkRequest` used in witnesses. -/
def reqW : BenchmarkRequest := ⟨"kern", [tmW], tmW2, [7]⟩

/-- A concrete benchmark evaluator used in witnesses: always returns 1.0. -/
def beW : BenchmarkRequest → Except Unit PyFloat := fun _ => Except.ok (PyFloat.val 1)

/-- A concrete pool holding one idle Worker. -/
def poolW : TuningProcessPool := ⟨some [workerW], some 1⟩

theorem sliceLoop_low (env : GetEnv) (k : Nat) (r : ℚ) (h : ¬ 1 ≤ r) :
    sliceLoop env k r = SliceOut.exhausted r := by
  rw [sliceLoop]; simp [h]

theorem sliceLoop_got_here (env : GetEnv) (k : Nat) (r : ℚ) (x : Response)
    (h : 1 ≤ r) (hx : env.sliceResp k = some x) :
    sliceLoop env k r = SliceOut.got x k := by
  rw [sliceLoop]; simp [h, hx]

theorem sliceLoop_step (env : GetEnv) (k : Nat) (r : ℚ) (h : 1 ≤ r)
    (hx : env.sliceResp k = none) (ha : env.aliveAfterSlice k = true) :
    sliceLoop env k r = sliceLoop env (k + 1) (r - 1 / 2) := by
  rw [sliceLoop]; simp [h, hx, ha]

theorem sliceLoop_dead_here (env : GetEnv) (k : Nat) (r : ℚ) (h : 1 ≤ r)
    (hx : env.sliceResp k = none) (ha : env.aliveAfterSlice k = false) :
    sliceLoop env k r = SliceOut.dead k := by
  rw [sliceLoop]; simp [h, hx, ha]

/-- Inversion: the polling loop only reports a response that the
environment actually delivered at that slice. -/
theorem sliceLoop_got_resp (env : GetEnv) (k : Nat) (r : ℚ) (x : Response) (i : Nat)
    (h : sliceLoop env k r = SliceOut.got x i) : env.sliceResp i = some x := by
  induction k, r using sliceLoop.induct env with
  | case1 j r hr y hy =>
      rw [sliceLoop_got_here env j r y hr hy] at h
      cases h
      exact hy
  | case2 j r hr hy ha ih =>
      rw [sliceLoop_step env j r hr hy ha] at h
      exact ih h
  | case3 j r hr hy ha =>
      rw [sliceLoop_dead_here env j r hr hy (by simpa using ha)] at h
      cases h
  | case4 j r hr =>
      rw [sliceLoop_low env j r hr] at h
      cases h

/-- If no response ever arrives, the polling loop never reports one. -/
theorem sliceLoop_no_got (env : GetEnv) (hresp : ∀ j, env.sliceResp j = none)
    (k : Nat) (r : ℚ) (x : Response) (i : Nat) :
    sliceLoop env k r ≠ SliceOut.got x i := by
  intro h
  have := sliceLoop_got_resp env k r x i h
  rw [hresp i] at this
  cases this

/-- Prompt death detection: if no response arrives through slice `k + i`,
the child is alive at the checks before slice `k + i` but dead at it, and
at least `1 + i/2` seconds remain, then the loop run from slice `k` stops
with `dead (k + i)` — after `i + 1` polls of 0.5s each, independent of how
much larger the remaining timeout is. -/
theorem sliceLoop_dead_detect (env : GetEnv) :
    ∀ (i k : Nat) (r : ℚ),
      (∀ j, k ≤ j → j ≤ k + i → env.sliceResp j = none) →
      (∀ j, k ≤ j → j < k + i → env.aliveAfterSlice j = true) →
      env.aliveAfterSlice (k + i) = false →
      1 + (i : ℚ) / 2 ≤ r →
      sliceLoop env k r = SliceOut.dead (k + i) := by
  intro i
  induction i with
  | zero =>
      intro k r hresp _ hdead hr
      have h1 : 1 ≤ r := by
        have : ((0 : ℕ) : ℚ) = 0 := by norm_num
        rw [this] at hr
        linarith
      exact sliceLoop_dead_here env k r h1 (hresp k le_rfl (by omega))
        (by simpa using hdead)
  | succ n ih =>
      intro k r hresp halive hdead hr
      have hcast : ((n + 1 : ℕ) : ℚ) = (n : ℚ) + 1 := by push_cast; ring
      have h1 : 1 ≤ r := by
        rw [hcast] at hr
        have hn : (0 : ℚ) ≤ (n : ℚ) := by positivity
        linarith
      have hx : env.sliceResp k = none := hresp k le_rfl (by omega)
      have ha : env.aliveAfterSlice k = true := halive k le_rfl (by omega)
      rw [sliceLoop_step env k r h1 hx ha]
      have hkn : k + 1 + n = k + (n + 1) := by omega
      have := ih (k + 1) (r - 1 / 2)
        (fun j h1j h2j => hresp j (by omega) (by omega))
        (fun j h1j h2j => halive j (by omega) (by omega))
        (by rw [hkn]; exact hdead)
        (by rw [hcast] at hr; linarith)
      rw [this, hkn]

/-- An unbounded `get` (`result_timeout=None`) on an initialized Worker
skips the polling loop entirely: it returns the final response if one
ever arrives and otherwise blocks forever, leaving the Worker unchanged. -/
theorem get_unbounded_eq (w : TuningProcess) (env : GetEnv) (g t : ℚ)
    (hp : w.process.isSome = true) (hq : w.response_queue.isSome = true) :
    TuningProcess.get w env none g t =
      (match env.finalResp with
       | some r => (GetOutcome.ok r, w)
       | none => (GetOutcome.hang, w)) := by
  unfold TuningProcess.get
  rw [hp, hq]
  rfl

/-- A bounded `get` in an environment that never delivers a response
(neither at any polling slice nor at the final bounded wait) runs the
`except queue.Empty` handler, whatever the aliveness history was. -/
theorem get_no_resp_handler (w : TuningProcess) (env : GetEnv) (rt g t : ℚ)
    (hp : w.process.isSome = true) (hq : w.response_queue.isSome = true)
    (hresp : ∀ j, env.sliceResp j = none) (hfin : env.finalResp = none) :
    TuningProcess.get w env (some rt) g t = exceptEmptyHandler w env g t := by
  unfold TuningProcess.get
  rw [hp, hq]
  simp only [Bool.and_self, if_true]
  cases hs : sliceLoop env 0 rt with
  | got x i => exact absurd hs (sliceLoop_no_got env hresp 0 rt x i)
  | dead i => rfl
  | exhausted q => rw [hfin]

/-- A bounded `get` never blocks forever. -/
theorem get_bounded_ne_hang (w : TuningProcess) (env : GetEnv) (rt g t : ℚ) :
    (TuningProcess.get w env (some rt) g t).1 ≠ GetOutcome.hang := by
  unfold TuningProcess.get
  by_cases hb : (w.process.isSome && w.response_queue.isSome) = true
  · rw [hb]
    simp only [if_true]
    cases hs : sliceLoop env 0 rt with
    | got x i => simp
    | dead i =>
        simp only [exceptEmptyHandler]
        cases env.exitcode <;> simp
    | exhausted q =>
        cases hf : env.finalResp with
        | some r => simp
        | none =>
            simp only [exceptEmptyHandler]
            cases env.exitcode <;> simp
  · rw [Bool.not_eq_true] at hb
    rw [hb]
    simp

/-- The crash branch of `get`: the waits are exhausted with no reply and
the child has already exited with code `c`; `get` clears the Worker and
re-raises the `queue.Empty` as a crash condition. -/
theorem get_crash_of_exit (w : TuningProcess) (env : GetEnv) (rt g t : ℚ) (c : Int)
    (hp : w.process.isSome = true) (hq : w.response_queue.isSome = true)
    (hresp : ∀ j, env.sliceResp j = none) (hfin : env.finalResp = none)
    (hexit : env.exitcode = some c) :
    TuningProcess.get w env (some rt) g t =
      (GetOutcome.empty (FailKind.crashed c), w.clear) := by
  rw [get_no_resp_handler w env rt g t hp hq hresp hfin]
  unfold exceptEmptyHandler
  rw [hexit]

/-- The hung-worker branch of `get`: the waits are exhausted with no
reply and the child is still running; `get` invokes the kill escalation
with the given graceful/terminate timeouts and re-raises the
`queue.Empty` as a timeout condition. -/
theorem get_timeout_kill (w : TuningProcess) (env : GetEnv) (rt g t : ℚ)
    (hp : w.process.isSome = true) (hq : w.response_queue.isSome = true)
    (hresp : ∀ j, env.sliceResp j = none) (hfin : env.finalResp = none)
    (hexit : env.exitcode = none) :
    TuningProcess.get w env (some rt) g t =
      (GetOutcome.empty (FailKind.timeoutKilled (w.kill g t).events),
       (w.kill g t).worker) := by
  rw [get_no_resp_handler w env rt g t hp hq hresp hfin]
  unfold exceptEmptyHandler
  rw [hexit]

/-- `kill` on a Worker with a process handle always clears the three
lifecycle fields and preserves the device id. -/
theorem kill_clears (w : TuningProcess) (p : ProcHandle) (g t : ℚ)
    (hp : w.process = some p) :
    (w.kill g t).worker.process = none ∧
    (w.kill g t).worker.request_queue = none ∧
    (w.kill g t).worker.response_queue = none ∧
    (w.kill g t).worker.device = w.device := by
  unfold TuningProcess.kill
  rw [hp]
  simp only
  by_cases h1 : (procJoinGraceful p).alive
  · by_cases h2 : (procJoinTerm (procJoinGraceful p)).alive
    · simp [h1, h2, TuningProcess.clear, TuningProcess.terminate]
      by_cases hv : w.valid <;> simp [hv]
    · simp [h1, h2, TuningProcess.clear, TuningProcess.terminate]
      by_cases hv : w.valid <;> simp [hv]
  · simp [h1, TuningProcess.clear, TuningProcess.terminate]
    by_cases hv : w.valid <;> simp [hv]

/-- C1: for every valid Worker (process field set, which by the lifecycle
invariant means the queues are set too), `kill(graceful_timeout,
terminate_timeout)` performs the escalation in order — (1) enqueue the
termination sentinel and join with `graceful_timeout`; (2) only if the
child is still alive, SIGTERM and join with `terminate_timeout`; (3) only
if still alive, SIGKILL unconditionally — and regardless of which step
ended the process, the Worker's lifecycle state is cleared on return and
the child process is no longer alive. -/
theorem C1_kill_escalation (w : TuningProcess) (p : ProcHandle) (g t : ℚ)
    (hp : w.process = some p) (hv : w.valid = true) :
    (w.kill g t).worker.process = none ∧
    (w.kill g t).worker.request_queue = none ∧
    (w.kill g t).worker.response_queue = none ∧
    (∃ pf, (w.kill g t).finalProc = some pf ∧ pf.alive = false) ∧
    (w.kill g t).events =
      KillEvent.sentinel :: KillEvent.joinGraceful g ::
        (if p.alive && !p.behavior.exitsOnGraceful then
           KillEvent.sigterm :: KillEvent.joinTerminate t ::
             (if p.behavior.exitsOnTerm then [] else [KillEvent.sigkill])
         else []) := by
  obtain ⟨pid, alv, eg, et⟩ := p
  cases alv <;> cases eg <;> cases et <;>
    simp [TuningProcess.kill, hp, hv, procJoinGraceful, procJoinTerm,
      TuningProcess.clear, TuningProcess.terminate]

/-- C1 witness: a concrete alive Worker whose child ignores both the
sentinel and SIGTERM runs the full three-step escalation. -/
theorem C1_kill_escalation_witness :
    (workerW.kill 5 1).worker.process = none ∧
    (workerW.kill 5 1).worker.request_queue = none ∧
    (workerW.kill 5 1).worker.response_queue = none ∧
    (∃ pf, (workerW.kill 5 1).finalProc = some pf ∧ pf.alive = false) ∧
    (workerW.kill 5 1).events =
      KillEvent.sentinel :: KillEvent.joinGraceful 5 ::
        (if procW.alive && !procW.behavior.exitsOnGraceful then
           KillEvent.sigterm :: KillEvent.joinTerminate 1 ::
             (if procW.behavior.exitsOnTerm then [] else [KillEvent.sigkill])
         else []) :=
  C1_kill_escalation workerW procW 5 1 rfl (by decide)

/-- C10: constructing a `BenchmarkRequest` with a tuple/list output
metadata succeeds only when its length is exactly 1 (the assert fails
otherwise), the single element is stored unwrapped, and a single input
`TensorMeta` is normalised to a one-element list — so no multi-output
request can be constructed. -/
theorem C10_benchmark_request_init (k : String) (inp : TensorMetaArg)
    (ts : List TensorMeta) (t0 : TensorMeta) (e : List Int) :
    (ts.length ≠ 1 → BenchmarkRequest.init k inp (TensorMetaArg.seq ts) e = none) ∧
    (∀ r, BenchmarkRequest.init k inp (TensorMetaArg.seq ts) e = some r →
      ts.length = 1) ∧
    (BenchmarkRequest.init k inp (TensorMetaArg.seq [t0]) e =
      BenchmarkRequest.init k inp (TensorMetaArg.single t0) e) ∧
    (∀ out r, BenchmarkRequest.init k (TensorMetaArg.single t0) out e = some r →
      r.input_tensor_meta = [t0]) ∧
    (∀ r, BenchmarkRequest.init k inp (TensorMetaArg.seq [t0]) e = some r →
      r.output_tensor_meta = t0) := by
  refine ⟨?_, ?_, rfl, ?_, ?_⟩
  · intro hne
    cases ts with
    | nil => rfl
    | cons a l =>
        cases l with
        | nil => simp at hne
        | cons b l2 => rfl
  · intro r h
    cases ts with
    | nil => simp [BenchmarkRequest.init] at h
    | cons a l =>
        cases l with
        | nil => rfl
        | cons b l2 => simp [BenchmarkRequest.init] at h
  · intro out r h
    cases out with
    | single u =>
        simp [BenchmarkRequest.init] at h
        rw [← h]
    | seq ts2 =>
        cases ts2 with
        | nil => simp [BenchmarkRequest.init] at h
        | cons a l =>
            cases l with
            | nil =>
                simp [BenchmarkRequest.init] at h
                rw [← h]
            | cons b l2 => simp [BenchmarkRequest.init] at h
  · intro r h
    simp [BenchmarkRequest.init] at h
    rw [← h]

/-- C10 witness: a two-element output list is rejected, a one-element
list is unwrapped, a single input is normalised to a list. -/
theorem C10_benchmark_request_init_witness :
    BenchmarkRequest.init "kern" (TensorMetaArg.single tmW)
        (TensorMetaArg.seq [tmW2, tmW2]) [7] = none ∧
    (∀ r, BenchmarkRequest.init "kern" (TensorMetaArg.single tmW)
        (TensorMetaArg.seq [tmW2]) [7] = some r → r.output_tensor_meta = tmW2) ∧
    (∀ r, BenchmarkRequest.init "kern" (TensorMetaArg.single tmW)
        (TensorMetaArg.seq [tmW2]) [7] = some r → r.input_tensor_meta = [tmW]) :=
  ⟨(C10_benchmark_request_init "kern" (TensorMetaArg.single tmW) [tmW2, tmW2] tmW2 [7]).1
      (by decide),
   (C10_benchmark_request_init "kern" (TensorMetaArg.single tmW) [tmW2, tmW2] tmW2 [7]).2.2.2.2,
   fun r h =>
     (C10_benchmark_request_init "kern" (TensorMetaArg.single tmW) [tmW2, tmW2] tmW [7]).2.2.2.1
       (TensorMetaArg.seq [tmW2]) r h⟩

/-- C8: device selection — multi-device disabled gives exactly one
device-agnostic entry; a set `CUDA_VISIBLE_DEVICES` gives exactly the
parsed comma-separated indices provided their number does not exceed the
device count (else the assert fails); otherwise every index `0..count-1`
in order. -/
theorem C8_device_list (count : Nat) (s : String) (ds : List Int) :
    (∀ cenv, TuningProcessPool.get_device_list false count cenv = some [none]) ∧
    (parseDeviceList s = some ds → ds.length ≤ count →
      TuningProcessPool.get_device_list true count (some s) = some (ds.map some)) ∧
    (parseDeviceList s = some ds → count < ds.length →
      TuningProcessPool.get_device_list true count (some s) = none) ∧
    (TuningProcessPool.get_device_list true count none =
      some ((List.range count).map (fun i => some (Int.ofNat i)))) := by
  refine ⟨fun cenv => rfl, ?_, ?_, rfl⟩
  · intro hp hle
    simp [TuningProcessPool.get_device_list, hp, hle]
  · intro hp hgt
    simp [TuningProcessPool.get_device_list, hp, Nat.not_le.mpr hgt]

/-- C8 witness: concrete device lists for all three branches. -/
theorem C8_device_list_witness :
    TuningProcessPool.get_device_list false 2 (some "0,1") = some [none] ∧
    TuningProcessPool.get_device_list true 2 (some "0,1") = some ([0, 1].map some) ∧
    TuningProcessPool.get_device_list true 1 (some "0,1") = none ∧
    TuningProcessPool.get_device_list true 2 none =
      some ((List.range 2).map (fun i => some (Int.ofNat i))) :=
  ⟨(C8_device_list 2 "0,1" [0, 1]).1 (some "0,1"),
   (C8_device_list 2 "0,1" [0, 1]).2.1 (by decide) (by decide),
   (C8_device_list 1 "0,1" [0, 1]).2.2.1 (by decide) (by decide),
   (C8_device_list 2 "0,1" [0, 1]).2.2.2⟩

/-- C6: around a Worker spawn, `CUDA_VISIBLE_DEVICES` is restored to
exactly its prior value afterwards (deleted when previously unset) even
when the body raises — the exception still propagates — and when no
device is assigned the variable is never modified at all. -/
theorem C6_cuda_env_restored (device : Option Int) (env0 : Option String) (br : Bool) :
    (set_cuda_visible_device device env0 br).envAfter = env0 ∧
    (set_cuda_visible_device device env0 br).raised = br ∧
    (device = none → (set_cuda_visible_device device env0 br).envDuring = env0) ∧
    (∀ d, device = some d →
      (set_cuda_visible_device device env0 br).envDuring = some (toString d)) := by
  cases device <;> cases env0 <;> simp [set_cuda_visible_device]

/-- C6 witness: previously-unset variable is deleted again after a raising
spawn with a device, and untouched when no device is assigned. -/
theorem C6_cuda_env_restored_witness :
    (set_cuda_visible_device (some 3) none true).envAfter = none ∧
    (set_cuda_visible_device (some 3) (some "7") true).envAfter = some "7" ∧
    (set_cuda_visible_device none (some "7") true).envDuring = some "7" ∧
    (set_cuda_visible_device (some 3) (some "7") true).envDuring = some "3" :=
  ⟨(C6_cuda_env_restored (some 3) none true).1,
   (C6_cuda_env_restored (some 3) (some "7") true).1,
   (C6_cuda_env_restored none (some "7") true).2.2.1 rfl,
   (C6_cuda_env_restored (some 3) (some "7") true).2.2.2 3 rfl⟩

/-- C5: the child work loop handles exactly four message kinds — the
`None` sentinel exits the loop; a `Ping` is answered with exactly one
`Pong`; a `BenchmarkRequest` is answered with the float its `benchmark()`
returns; any other message raises, ending the loop — and the parent
subsequently observes the dead worker as a crash on its next `get`. -/
theorem C5_workloop (be : BenchmarkRequest → Except Unit PyFloat)
    (rest : List Request) (b : BenchmarkRequest) (v : PyFloat)
    (w : TuningProcess) (env : GetEnv) (rt g t : ℚ) (c : Int) :
    (TuningProcess.workloop be (Request.sentinel :: rest) =
      ([], WorkloopExit.sentinelExit)) ∧
    (TuningProcess.workloop be (Request.ping :: rest) =
      (Response.pong :: (TuningProcess.workloop be rest).1,
       (TuningProcess.workloop be rest).2)) ∧
    (be b = Except.ok v →
      TuningProcess.workloop be (Request.bench b :: rest) =
        (Response.result v :: (TuningProcess.workloop be rest).1,
         (TuningProcess.workloop be rest).2)) ∧
    (TuningProcess.workloop be (Request.invalid :: rest) =
      ([], WorkloopExit.protocolError)) ∧
    (w.process.isSome = true → w.response_queue.isSome = true →
      (∀ j, env.sliceResp j = none) → env.finalResp = none →
      env.exitcode = some c →
      TuningProcess.get w env (some rt) g t =
        (GetOutcome.empty (FailKind.crashed c), w.clear)) := by
  refine ⟨rfl, rfl, ?_, rfl, ?_⟩
  · intro hb
    simp [TuningProcess.workloop, hb]
  · intro hp hq hresp hfin hexit
    exact get_crash_of_exit w env rt g t c hp hq hresp hfin hexit

/-- C5 witness: concrete runs of the work loop for each message kind and
a concrete crash detection by the parent. -/
theorem C5_workloop_witness :
    TuningProcess.workloop beW [Request.sentinel] = ([], WorkloopExit.sentinelExit) ∧
    TuningProcess.workloop beW [Request.ping] =
      (Response.pong :: (TuningProcess.workloop beW []).1,
       (TuningProcess.workloop beW []).2) ∧
    TuningProcess.workloop beW [Request.bench reqW] =
      (Response.result (PyFloat.val 1) :: (TuningProcess.workloop beW []).1,
       (TuningProcess.workloop beW []).2) ∧
    TuningProcess.workloop beW [Request.invalid] = ([], WorkloopExit.protocolError) ∧
    TuningProcess.get workerW envCrash (some 2) 3 1 =
      (GetOutcome.empty (FailKind.crashed 9), workerW.clear) :=
  ⟨(C5_workloop beW [] reqW (PyFloat.val 1) workerW envCrash 2 3 1 9).1,
   (C5_workloop beW [] reqW (PyFloat.val 1) workerW envCrash 2 3 1 9).2.1,
   (C5_workloop beW [] reqW (PyFloat.val 1) workerW envCrash 2 3 1 9).2.2.1 rfl,
   (C5_workloop beW [] reqW (PyFloat.val 1) workerW envCrash 2 3 1 9).2.2.2.1,
   (C5_workloop beW [] reqW (PyFloat.val 1) workerW envCrash 2 3 1 9).2.2.2.2 rfl rfl
     (fun j => rfl) rfl rfl⟩

/-- C3: when a bounded `get` exhausts its wait with no reply on an
initialized Worker — if the child is still running, `get` invokes the
kill escalation with the given graceful/terminate timeouts and fails
with a timeout condition (Worker no longer valid); if the child has
already exited, `get` resets the Worker to uninitialized — so a future
`put` respawns it — and fails with a crash condition; in neither case
does `get` return a value. -/
theorem C3_get_failure_paths (w : TuningProcess) (env : GetEnv) (rt g t : ℚ)
    (hp : w.process.isSome = true) (hq : w.response_queue.isSome = true)
    (hresp : ∀ j, env.sliceResp j = none) (hfin : env.finalResp = none) :
    (env.exitcode = none →
      TuningProcess.get w env (some rt) g t =
        (GetOutcome.empty (FailKind.timeoutKilled (w.kill g t).events),
         (w.kill g t).worker) ∧
      (w.kill g t).worker.valid = false) ∧
    (∀ c, env.exitcode = some c →
      TuningProcess.get w env (some rt) g t =
        (GetOutcome.empty (FailKind.crashed c), w.clear) ∧
      w.clear.valid = false ∧
      (∀ s o, (w.clear.put s o).process = some s ∧ (w.clear.put s o).valid = true)) ∧
    (∀ r, (TuningProcess.get w env (some rt) g t).1 ≠ GetOutcome.ok r) := by
  obtain ⟨p, hp'⟩ := Option.isSome_iff_exists.mp hp
  refine ⟨?_, ?_, ?_⟩
  · intro hexit
    refine ⟨get_timeout_kill w env rt g t hp hq hresp hfin hexit, ?_⟩
    obtain ⟨h1, h2, h3, _⟩ := kill_clears w p g t hp'
    simp [TuningProcess.valid, h1, h2, h3]
  · intro c hexit
    refine ⟨get_crash_of_exit w env rt g t c hp hq hresp hfin hexit, ?_, ?_⟩
    · simp [TuningProcess.valid, TuningProcess.clear]
    · intro s o
      simp [TuningProcess.put, TuningProcess.initWorker, TuningProcess.valid,
        TuningProcess.clear]
  · intro r
    rw [get_no_resp_handler w env rt g t hp hq hresp hfin]
    unfold exceptEmptyHandler
    cases env.exitcode <;> simp

/-- C3 witness: a concrete Worker in the pure-timeout environment (kill
invoked with the given timeouts, no value returned) and in the crashed
environment (Worker reset, a later put respawns). -/
theorem C3_get_failure_paths_witness :
    (TuningProcess.get workerW envNoResp (some 2) 3 1 =
      (GetOutcome.empty (FailKind.timeoutKilled (workerW.kill 3 1).events),
       (workerW.kill 3 1).worker) ∧
     (workerW.kill 3 1).worker.valid = false) ∧
    (TuningProcess.get workerW envCrash (some 2) 3 1 =
      (GetOutcome.empty (FailKind.crashed 9), workerW.clear) ∧
     workerW.clear.valid = false ∧
     (∀ s o, (workerW.clear.put s o).process = some s ∧
       (workerW.clear.put s o).valid = true)) ∧
    (∀ r, (TuningProcess.get workerW envNoResp (some 2) 3 1).1 ≠ GetOutcome.ok r) :=
  ⟨(C3_get_failure_paths workerW envNoResp 2 3 1 rfl rfl (fun j => rfl) rfl).1 rfl,
   (C3_get_failure_paths workerW envCrash 2 3 1 rfl rfl (fun j => rfl) rfl).2.1 9 rfl,
   (C3_get_failure_paths workerW envNoResp 2 3 1 rfl rfl (fun j => rfl) rfl).2.2⟩

/-- C9: a bounded `get` polls in 0.5-second slices and checks child
aliveness between slices, so a death at slice `i` is detected there —
the polling loop stops with `dead i` after `i + 1` half-second polls for
every `result_timeout` large enough to still have slices left, rather
than only after the full `result_timeout` — and `get` then takes the
failure path, never returning a value. -/
theorem C9_prompt_death_detection (w : TuningProcess) (env : GetEnv) (i : Nat)
    (rt g t : ℚ)
    (hp : w.process.isSome = true) (hq : w.response_queue.isSome = true)
    (hresp : ∀ j, j ≤ i → env.sliceResp j = none)
    (halive : ∀ j, j < i → env.aliveAfterSlice j = true)
    (hdead : env.aliveAfterSlice i = false)
    (hrt : 1 + (i : ℚ) / 2 ≤ rt) :
    sliceLoop env 0 rt = SliceOut.dead i ∧
    TuningProcess.get w env (some rt) g t = exceptEmptyHandler w env g t ∧
    (∀ r, (TuningProcess.get w env (some rt) g t).1 ≠ GetOutcome.ok r) := by
  have hsl : sliceLoop env 0 rt = SliceOut.dead i := by
    have := sliceLoop_dead_detect env i 0 rt
      (fun j h1j h2j => hresp j (by omega))
      (fun j h1j h2j => halive j (by omega))
      (by simpa using hdead)
      hrt
    simpa using this
  have hget : TuningProcess.get w env (some rt) g t = exceptEmptyHandler w env g t := by
    unfold TuningProcess.get
    rw [hp, hq]
    simp only [Bool.and_self, if_true]
    rw [hsl]
  refine ⟨hsl, hget, ?_⟩
  intro r
  rw [hget]
  unfold exceptEmptyHandler
  cases env.exitcode <;> simp

/-- C9 witness: a child found dead at the very first slice is detected
there with two full seconds of `result_timeout` still remaining. -/
theorem C9_prompt_death_detection_witness :
    sliceLoop envDead0 0 2 = SliceOut.dead 0 ∧
    TuningProcess.get workerW envDead0 (some 2) 3 1 =
      exceptEmptyHandler workerW envDead0 3 1 ∧
    (∀ r, (TuningProcess.get workerW envDead0 (some 2) 3 1).1 ≠ GetOutcome.ok r) :=
  C9_prompt_death_detection workerW envDead0 0 2 3 1 rfl rfl
    (fun j hj => rfl) (fun j hj => absurd hj (Nat.not_lt_zero j)) rfl (by simp)

/-- After `put`, the Worker is initialized: process and response queue
are set (put re-spawns a cleared Worker before enqueuing). -/
theorem put_initialized (w : TuningProcess) (s : ProcHandle) (o : Request) :
    (w.put s o).process.isSome = true ∧ (w.put s o).response_queue.isSome = true := by
  unfold TuningProcess.put TuningProcess.initWorker
  by_cases hv : w.valid
  · have h := hv
    unfold TuningProcess.valid at h
    simp only [Bool.and_eq_true] at h
    simp [hv, h.1.1, h.2]
  · simp [hv]

/-- A bounded `get` on an initialized Worker either returns a response or
raises `queue.Empty` — nothing else. -/
theorem get_ok_or_empty (w : TuningProcess) (env : GetEnv) (rt g t : ℚ)
    (hp : w.process.isSome = true) (hq : w.response_queue.isSome = true) :
    (∃ r, (TuningProcess.get w env (some rt) g t).1 = GetOutcome.ok r) ∨
    (∃ f, (TuningProcess.get w env (some rt) g t).1 = GetOutcome.empty f) := by
  unfold TuningProcess.get
  rw [hp, hq]
  simp only [Bool.and_self, if_true]
  cases sliceLoop env 0 rt with
  | got x i => exact Or.inl ⟨x, rfl⟩
  | dead i =>
      unfold exceptEmptyHandler
      cases env.exitcode <;> exact Or.inr ⟨_, rfl⟩
  | exhausted q =>
      cases env.finalResp with
      | some r => exact Or.inl ⟨r, rfl⟩
      | none =>
          unfold exceptEmptyHandler
          cases env.exitcode <;> exact Or.inr ⟨_, rfl⟩

/-- C2: one dispatch step (`target`) pops the head Worker, and on every
exit path — success or `queue.Empty` after timeout/crash — the Worker is
returned to the idle collection exactly once, so the collection size is
invariant; a timeout/crash is not re-raised to the caller but converted
to the `float("inf")` sentinel; and the dispatch neither blocks nor
propagates an exception. -/
theorem C2_dispatch_invariant (pool : TuningProcessPool) (p : TuningProcess)
    (rest : List TuningProcess) (spawn : ProcHandle) (env : GetEnv)
    (req : BenchmarkRequest) (rt g t : ℚ)
    (hp : pool.processes = some (p :: rest)) :
    (∃ ws, (TuningProcessPool.target pool spawn env req rt g t).2.processes = some ws ∧
       ws.length = (p :: rest).length) ∧
    (∀ f, (TuningProcess.get (p.put spawn (Request.bench req)) env (some rt) g t).1 =
        GetOutcome.empty f →
      (TuningProcessPool.target pool spawn env req rt g t).1 = TargetOut.inf) ∧
    (∀ r, (TuningProcess.get (p.put spawn (Request.bench req)) env (some rt) g t).1 =
        GetOutcome.ok r →
      (TuningProcessPool.target pool spawn env req rt g t).1 = TargetOut.value r) ∧
    (TuningProcessPool.target pool spawn env req rt g t).1 ≠ TargetOut.blocked ∧
    (TuningProcessPool.target pool spawn env req rt g t).1 ≠ TargetOut.raisedErr := by
  have hput := put_initialized p spawn (Request.bench req)
  rcases get_ok_or_empty (p.put spawn (Request.bench req)) env rt g t hput.1 hput.2 with
    ⟨r0, hr0⟩ | ⟨f0, hf0⟩
  · refine ⟨⟨rest ++ [(TuningProcess.get (p.put spawn (Request.bench req)) env
        (some rt) g t).2], ?_, ?_⟩, ?_, ?_, ?_, ?_⟩
    · simp [TuningProcessPool.target, hp, hr0]
    · simp
    · intro f hf
      rw [hf] at hr0
      cases hr0
    · intro r hr
      rw [hr] at hr0
      cases hr0
      simp [TuningProcessPool.target, hp, hr]
    · simp [TuningProcessPool.target, hp, hr0]
    · simp [TuningProcessPool.target, hp, hr0]
  · refine ⟨⟨rest ++ [(TuningProcess.get (p.put spawn (Request.bench req)) env
        (some rt) g t).2], ?_, ?_⟩, ?_, ?_, ?_, ?_⟩
    · simp [TuningProcessPool.target, hp, hf0]
    · simp
    · intro f hf
      simp [TuningProcessPool.target, hp, hf0]
    · intro r hr
      rw [hr] at hf0
      cases hf0
    · simp [TuningProcessPool.target, hp, hf0]
    · simp [TuningProcessPool.target, hp, hf0]

/-- C2 witness: dispatching against a hung concrete Worker keeps the idle
collection at size one and yields the infinity sentinel. -/
theorem C2_dispatch_invariant_witness :
    (∃ ws, (TuningProcessPool.target poolW procW envNoResp reqW 2 3 1).2.processes =
       some ws ∧ ws.length = 1) ∧
    (TuningProcessPool.target poolW procW envNoResp reqW 2 3 1).1 = TargetOut.inf := by
  have h := C2_dispatch_invariant poolW workerW [] procW envNoResp reqW 2 3 1 rfl
  refine ⟨?_, ?_⟩
  · obtain ⟨ws, h1, h2⟩ := h.1
    exact ⟨ws, h1, by simpa using h2⟩
  · refine h.2.1
      (FailKind.timeoutKilled ((workerW.put procW (Request.bench reqW)).kill 3 1).events) ?_
    rw [get_timeout_kill (workerW.put procW (Request.bench reqW)) envNoResp 2 3 1
      rfl rfl (fun j => rfl) rfl rfl]

/-- The closed form of one pool Worker: freshly constructed with its
device, initialized with its spawned process, and holding the one `Ping`
that was `put`. -/
theorem buildWorker_closed (d : Option Int) (s : ProcHandle) :
    ((TuningProcess.mk d none none none).initWorker s).put s Request.ping =
      ⟨d, some s, some [Request.ping], some ()⟩ := rfl

/-- `buildWorkers` produces one Worker per device. -/
theorem buildWorkers_length (spawn : Nat → ProcHandle) (i : Nat)
    (ds : List (Option Int)) : (buildWorkers spawn i ds).length = ds.length := by
  induction ds generalizing i with
  | nil => rfl
  | cons d ds ih => simp [buildWorkers, ih]

/-- The j-th pool Worker is bound to the j-th device, holds the j-th
spawned process, and was sent exactly one `Ping`. -/
theorem buildWorkers_getElem (spawn : Nat → ProcHandle) (i : Nat)
    (ds : List (Option Int)) (j : Nat) (h : j < ds.length) :
    (buildWorkers spawn i ds).get ⟨j, by rw [buildWorkers_length]; exact h⟩ =
      ⟨ds.get ⟨j, h⟩, some (spawn (i + j)), some [Request.ping], some ()⟩ := by
  induction ds generalizing i j with
  | nil => exact absurd h (Nat.not_lt_zero j)
  | cons d ds ih =>
      cases j with
      | zero => simpa [buildWorkers] using buildWorker_closed d (spawn i)
      | succ j =>
          have hj : j < ds.length := by simpa using h
          have := ih (i + 1) j hj
          simpa [buildWorkers, Nat.add_assoc, Nat.add_comm 1 j] using this

/-- Every pool Worker built by the initialization loop is initialized. -/
theorem buildWorkers_mem_init (spawn : Nat → ProcHandle) (i : Nat)
    (ds : List (Option Int)) (w : TuningProcess) (hw : w ∈ buildWorkers spawn i ds) :
    w.process.isSome = true ∧ w.response_queue.isSome = true := by
  induction ds generalizing i with
  | nil => cases hw
  | cons d ds ih =>
      rw [buildWorkers] at hw
      rcases List.mem_cons.mp hw with hw | hw
      · subst hw
        rw [buildWorker_closed]
        exact ⟨rfl, rfl⟩
      · exact ih (i + 1) hw

/-- The handshake loop returns `allPong` exactly when every Worker's
unbounded `get` yields a `Pong`. -/
theorem handshakeAll_iff (henv : Nat → GetEnv) (ws : List TuningProcess) (k : Nat)
    (hws : ∀ w, w ∈ ws → w.process.isSome = true ∧ w.response_queue.isSome = true) :
    (handshakeAll henv k ws = HsOut.allPong ↔
      ∀ j, j < ws.length → (henv (k + j)).finalResp = some Response.pong) := by
  induction ws generalizing k with
  | nil => simp [handshakeAll]
  | cons p rest ih =>
      have hp := (hws p (List.mem_cons_self p rest)).1
      have hq := (hws p (List.mem_cons_self p rest)).2
      rw [handshakeAll,
        get_unbounded_eq p (henv k) 3 1 hp hq]
      cases hf : (henv k).finalResp with
      | some r =>
          cases r with
          | pong =>
              simp only []
              rw [ih (k + 1) (fun w hw => hws w (List.mem_cons_of_mem p hw))]
              constructor
              · intro hall j hj
                cases j with
                | zero => simpa using hf
                | succ j =>
                    have := hall j (by simpa using hj)
                    simpa [Nat.add_assoc, Nat.add_comm 1 j] using this
              · intro hall j hj
                have := hall (j + 1) (by simpa using hj)
                simpa [Nat.add_assoc, Nat.add_comm 1 j] using this
          | result v =>
              simp only []
              constructor
              · intro hcon
                cases hcon
              · intro hall
                have := hall 0 (by simp)
                simp at this
                rw [hf] at this
                cases this
      | none =>
          simp only []
          constructor
          · intro hcon
            cases hcon
          · intro hall
            have := hall 0 (by simp)
            simp at this
            rw [hf] at this
            cases this

/-- C4: for N configured devices, pool initialization creates exactly N
Workers — the j-th bound to the j-th device, initialized, and sent one
`Ping` — and returns successfully exactly when every Worker's unbounded
handshake wait yields a `Pong`; in particular `initialize()` does not
return before every Worker has completed its startup handshake. -/
theorem C4_pool_handshake (pool : TuningProcessPool) (multi : Bool) (count : Nat)
    (cudaEnv : Option String) (spawn : Nat → ProcHandle) (henv : Nat → GetEnv)
    (devices : List (Option Int))
    (h0 : pool.processes = none) (h1 : pool.executor = none)
    (hdev : TuningProcessPool.get_device_list multi count cudaEnv = some devices) :
    ((∀ i, i < devices.length → (henv i).finalResp = some Response.pong) →
      TuningProcessPool.initPool pool multi count cudaEnv spawn henv =
        InitOut.ok ⟨some (buildWorkers spawn 0 devices), some devices.length⟩) ∧
    ((buildWorkers spawn 0 devices).length = devices.length) ∧
    (∀ j (hj : j < devices.length),
      (buildWorkers spawn 0 devices).get
          ⟨j, by rw [buildWorkers_length]; exact hj⟩ =
        ⟨devices.get ⟨j, hj⟩, some (spawn j), some [Request.ping], some ()⟩) ∧
    (∀ q, TuningProcessPool.initPool pool multi count cudaEnv spawn henv =
        InitOut.ok q →
      ∀ i, i < devices.length → (henv i).finalResp = some Response.pong) := by
  have hiff := handshakeAll_iff henv (buildWorkers spawn 0 devices) 0
    (fun w hw => buildWorkers_mem_init spawn 0 devices w hw)
  have hlen := buildWorkers_length spawn 0 devices
  refine ⟨?_, hlen, ?_, ?_⟩
  · intro hall
    have hhs : handshakeAll henv 0 (buildWorkers spawn 0 devices) = HsOut.allPong := by
      rw [hiff]
      intro j hj
      rw [hlen] at hj
      simpa using hall j hj
    simp [TuningProcessPool.initPool, h0, h1, hdev, hhs]
  · intro j hj
    have := buildWorkers_getElem spawn 0 devices j hj
    simpa using this
  · intro q hok i hi
    cases hhs : handshakeAll henv 0 (buildWorkers spawn 0 devices) with
    | allPong =>
        have hall := hiff.mp hhs i (by rw [hlen]; exact hi)
        simpa using hall
    | blocked j =>
        rw [show TuningProcessPool.initPool pool multi count cudaEnv spawn henv =
             InitOut.blocked j by
           simp [TuningProcessPool.initPool, h0, h1, hdev, hhs]] at hok
        cases hok
    | raised =>
        rw [show TuningProcessPool.initPool pool multi count cudaEnv spawn henv =
             InitOut.raised by
           simp [TuningProcessPool.initPool, h0, h1, hdev, hhs]] at hok
        cases hok

/-- C4 witness: a fresh single-device-agnostic pool whose Worker answers
`Pong` initializes to exactly one pinged Worker. -/
theorem C4_pool_handshake_witness :
    TuningProcessPool.initPool ⟨none, none⟩ false 0 none (fun _ => procW)
        (fun _ => envPong) =
      InitOut.ok ⟨some (buildWorkers (fun _ => procW) 0 [none]), some 1⟩ ∧
    (buildWorkers (fun _ => procW) 0 [none]).length = 1 := by
  have h := C4_pool_handshake ⟨none, none⟩ false 0 none (fun _ => procW)
    (fun _ => envPong) [none] rfl rfl rfl
  exact ⟨by simpa using h.1 (fun i hi => rfl), by simpa using h.2.1⟩

/-- `clear` establishes the cleared side of the lifecycle invariant and
preserves the device id. -/
theorem clear_stateInvariant (w : TuningProcess) :
    w.clear.stateInvariant ∧ w.clear.device = w.device :=
  ⟨Or.inr ⟨rfl, rfl, rfl⟩, rfl⟩

/-- `valid` holds exactly when the three lifecycle fields are set. -/
theorem valid_iff_fields (w : TuningProcess) :
    w.valid = true ↔
      (w.process ≠ none ∧ w.request_queue ≠ none ∧ w.response_queue ≠ none) := by
  unfold TuningProcess.valid
  simp [Bool.and_eq_true, Option.isSome_iff_ne_none, and_assoc]

/-- After `initWorker` the three lifecycle fields are always set. -/
theorem initWorker_fields (w : TuningProcess) (s : ProcHandle) :
    (w.initWorker s).process ≠ none ∧ (w.initWorker s).request_queue ≠ none ∧
    (w.initWorker s).response_queue ≠ none ∧ (w.initWorker s).device = w.device := by
  unfold TuningProcess.initWorker
  by_cases hv : w.valid = true
  · have h3 := (valid_iff_fields w).mp hv
    simp only [hv, if_true]
    exact ⟨h3.1, h3.2.1, h3.2.2, trivial⟩
  · simp only [hv, if_false, Bool.false_eq_true]
    refine ⟨?_, ?_, ?_, trivial⟩ <;> simp

/-- The Worker returned by `get` is the input Worker, the killed-and-
cleared Worker, or the cleared Worker. -/
theorem get_snd_cases (w : TuningProcess) (env : GetEnv) (ort : Option ℚ) (g t : ℚ) :
    (TuningProcess.get w env ort g t).2 = w ∨
    (TuningProcess.get w env ort g t).2 = (w.kill g t).worker ∨
    (TuningProcess.get w env ort g t).2 = w.clear := by
  unfold TuningProcess.get
  by_cases hb : (w.process.isSome && w.response_queue.isSome) = true
  · rw [hb]
    simp only [if_true]
    cases ort with
    | none => cases hf : env.finalResp <;> simp [hf]
    | some rt =>
        cases hs : sliceLoop env 0 rt with
        | got r i => simp [hs]
        | dead i =>
            simp only [hs]
            unfold exceptEmptyHandler
            cases hx : env.exitcode <;> simp [hx]
        | exhausted q =>
            simp only [hs]
            cases hf : env.finalResp with
            | some r => simp [hf]
            | none =>
                simp only [hf]
                unfold exceptEmptyHandler
                cases hx : env.exitcode <;> simp [hx]
  · rw [Bool.not_eq_true] at hb
    rw [hb]
    simp

/-- `kill` preserves the lifecycle invariant and the device id. -/
theorem kill_stateInvariant (w : TuningProcess) (g t : ℚ) (h : w.stateInvariant) :
    (w.kill g t).worker.stateInvariant ∧ (w.kill g t).worker.device = w.device := by
  cases hp : w.process with
  | none =>
      unfold TuningProcess.kill
      rw [hp]
      exact ⟨h, rfl⟩
  | some p =>
      obtain ⟨h1, h2, h3, h4⟩ := kill_clears w p g t hp
      exact ⟨Or.inr ⟨h1, h2, h3⟩, h4⟩

/-- C7 counterexample: killing a fully-initialized Worker that is bound
to device 0 leaves `device = some 0` with the other three fields `none` —
a state in which neither "all four fields set" nor "all four fields
unset" holds.  (A fresh `TuningProcess(device=0)`, as created by pool
initialization, is already such a state.) -/
theorem C7_counterexample :
    ¬ ((workerW.kill 5 1).worker.allFieldsSet ∨
       (workerW.kill 5 1).worker.allFieldsUnset) := by
  rintro (⟨hd, hp2, h3, h4⟩ | ⟨hd, hp2, h3, h4⟩)
  · exact hp2 rfl
  · exact Option.noConfusion hd

/-- C7 (amended): every Worker operation keeps the three lifecycle fields
(process handle, request channel, response channel) either all set or all
unset — never partially initialized — and preserves the device id, which
is independent of the lifecycle fields; `valid` is exactly "all three
set". -/
theorem C7_amended_lifecycle_invariant (w : TuningProcess) (s : ProcHandle)
    (o : Request) (env : GetEnv) (ort : Option ℚ) (g t : ℚ)
    (h : w.stateInvariant) :
    (w.initWorker s).stateInvariant ∧ (w.initWorker s).device = w.device ∧
    (w.put s o).stateInvariant ∧ (w.put s o).device = w.device ∧
    w.terminate.stateInvariant ∧ w.terminate.device = w.device ∧
    w.wait.stateInvariant ∧ w.wait.device = w.device ∧
    (w.kill g t).worker.stateInvariant ∧ (w.kill g t).worker.device = w.device ∧
    (TuningProcess.get w env ort g t).2.stateInvariant ∧
    (TuningProcess.get w env ort g t).2.device = w.device ∧
    (w.valid = true ↔
      (w.process ≠ none ∧ w.request_queue ≠ none ∧ w.response_queue ≠ none)) := by
  obtain ⟨hi1, hi2, hi3, hi4⟩ := initWorker_fields w s
  have hput : (w.put s o).stateInvariant ∧ (w.put s o).device = w.device := by
    unfold TuningProcess.put
    refine ⟨Or.inl ⟨hi1, ?_, hi3⟩, hi4⟩
    cases hq : (w.initWorker s).request_queue with
    | none => exact absurd hq hi2
    | some q => simp [hq]
  have hterm : w.terminate.stateInvariant ∧ w.terminate.device = w.device := by
    unfold TuningProcess.terminate
    by_cases hv : w.valid = true
    · obtain ⟨t1, t2, t3⟩ := (valid_iff_fields w).mp hv
      simp only [hv, if_true]
      refine ⟨Or.inl ⟨t1, ?_, t3⟩, trivial⟩
      cases hq : w.request_queue with
      | none => exact absurd hq t2
      | some q => simp [hq]
    · simp only [hv, if_false, Bool.false_eq_true]
      exact ⟨h, trivial⟩
  have hwait : w.wait.stateInvariant ∧ w.wait.device = w.device := by
    unfold TuningProcess.wait
    by_cases hpz : w.process.isSome = true
    · simp only [hpz, if_true]
      exact clear_stateInvariant w
    · simp only [hpz, if_false, Bool.false_eq_true]
      exact ⟨h, trivial⟩
  have hkill := kill_stateInvariant w g t h
  have hget : (TuningProcess.get w env ort g t).2.stateInvariant ∧
      (TuningProcess.get w env ort g t).2.device = w.device := by
    rcases get_snd_cases w env ort g t with hc | hc | hc <;> rw [hc]
    · exact ⟨h, rfl⟩
    · exact hkill
    · exact clear_stateInvariant w
  exact ⟨Or.inl ⟨hi1, hi2, hi3⟩, hi4, hput.1, hput.2, hterm.1, hterm.2,
    hwait.1, hwait.2, hkill.1, hkill.2, hget.1, hget.2, valid_iff_fields w⟩

/-- C7 (amended) witness: the invariant holds across all operations of a
concrete valid Worker. -/
theorem C7_amended_lifecycle_invariant_witness :
    (workerW.initWorker procG).stateInvariant ∧
    (workerW.initWorker procG).device = workerW.device ∧
    (workerW.put procG Request.ping).stateInvariant ∧
    (workerW.put procG Request.ping).device = workerW.device ∧
    workerW.terminate.stateInvariant ∧
    workerW.terminate.device = workerW.device ∧
    workerW.wait.stateInvariant ∧
    workerW.wait.device = workerW.device ∧
    (workerW.kill 3 1).worker.stateInvariant ∧
    (workerW.kill 3 1).worker.device = workerW.device ∧
    (TuningProcess.get workerW envNoResp (some 2) 3 1).2.stateInvariant ∧
    (TuningProcess.get workerW envNoResp (some 2) 3 1).2.device = workerW.device ∧
    (workerW.valid = true ↔
      (workerW.process ≠ none ∧ workerW.request_queue ≠ none ∧
       workerW.response_queue ≠ none)) :=
  C7_amended_lifecycle_invariant workerW procG Request.ping envNoResp (some 2) 3 1
    (Or.inl ⟨fun hc => Option.noConfusion hc, fun hc => Option.noConfusion hc,
      fun hc => Option.noConfusion hc⟩)
